import Mathlib

/-
Verification of the dead-method clang plugin (most evolved revision,
the one implementing the include-template-methods option, friend gating
and argument validation).

The embedding models canonical declaration identities as natural numbers:
a method identity is the canonical CXXMethodDecl pointer, a class identity
is the canonical CXXRecordDecl pointer, and a class-type identity is the
canonical Type pointer obtained from getRecordType / getCanonicalType
(the ClassSet of the source stores these Type pointers).  The source's
defensive null checks on getCanonicalDecl and getParent guard situations
that cannot arise for class methods (getCanonicalDecl never returns null);
those are collapsed here, while every null/ dyn_cast failure that can
actually occur is kept as an Option: the canonical type pointer of a
QualType (getTypePtrOrNull), the member declaration of a MemberExpr that
is not a method, the referenced declaration of a DeclRefExpr that is not
a method, a friend declaration that is not a function, and an absent
friend type.
-/

namespace DeadMethod

/-- Access specifier of a declaration, as in clang's AccessSpecifier. -/
inductive Access where
  | AS_public : Access
  | AS_protected : Access
  | AS_private : Access
  | AS_none : Access
deriving DecidableEq

/-- Attributes of a canonical method declaration, as queried by the source:
getParent (the owning class identity), isDefined (some redeclaration has a
body in this unit), getAccess, getDescribedFunctionTemplate (whether the
method is itself a function template), and the constructor/destructor
dyn_casts used at report time. -/
structure MethodAttrs where
  parent : Nat
  isDefined : Bool
  access : Access
  hasDescribedTemplate : Bool
  isCtor : Bool
  isDtor : Bool
deriving DecidableEq

/-- One friend entry of a class, as iterated by friend_begin/friend_end.
friendFunctionDefined is some b when getFriendDecl dyn_casts to a
FunctionDecl, with b the value of getCanonicalDecl()->isDefined(); none
when the friend declaration is absent or not a function.  friendType is
some qt when getFriendType is non-null, with qt the canonical type pointer
of the named type (none inside models a null getTypePtrOrNull); none when
getFriendType is null. -/
structure FriendEntry where
  friendFunctionDefined : Option Bool
  friendType : Option (Option Nat)
deriving DecidableEq

/-- Attributes of a canonical class declaration: the canonical type pointer
of ctx.getRecordType (none models a null getTypePtrOrNull), hasDefinition,
and the list of friend entries. -/
structure RecordAttrs where
  recordType : Option Nat
  hasDefinition : Bool
  friends : List FriendEntry
deriving DecidableEq

/-- A node of the declaration tree as classified by the collector's
visitors: a CXXMethodDecl (identified by its canonical declaration), a
CXXRecordDecl (identified by its canonical declaration), or any other
declaration, which both visitors ignore. -/
inductive Decl where
  | methodDecl : Nat → Decl
  | recordDecl : Nat → Decl
  | otherDecl : Decl
deriving DecidableEq

/-- An expression node of the unit's syntax tree.  memberExpr carries
getMemberDecl after dyn_cast_or_null to CXXMethodDecl and canonicalization
(none when the member is not a method); its children are the base and any
subexpressions.  callExpr's first field records whether the node is a
CXXMemberCallExpr; a member call's callee is a MemberExpr, which the
recursive traversal visits as a child.  declRefExpr carries getDecl after
dyn_cast to CXXMethodDecl and canonicalization.  otherExpr stands for every
other expression kind, with its children. -/
inductive Expr where
  | memberExpr : Option Nat → List Expr → Expr
  | declRefExpr : Option Nat → Expr
  | callExpr : Bool → Expr → List Expr → Expr
  | otherExpr : List Expr → Expr

/-- A translation unit: attribute lookup for canonical method and class
identities, the declaration nodes visited by the collector's traversal,
and the expression trees traversed by the remover. -/
structure TranslationUnit where
  methodAttrs : Nat → MethodAttrs
  recordAttrs : Nat → RecordAttrs
  decls : List Decl
  exprs : List Expr

/-- Contains of the source: canonicalize the QualType, treat a null type
pointer as absent.  Here the argument is already the canonical type
pointer (or none for null). -/
def Contains (set : Finset Nat) (elt : Option Nat) : Bool :=
  match elt with
  | none => false
  | some t => t ∈ set

/-- Insert of the source: canonicalize the QualType and insert, skipping a
null type pointer. -/
def Insert (set : Finset Nat) (elt : Option Nat) : Finset Nat :=
  match elt with
  | none => set
  | some t => insert t set

/-- DeclRemover::FlagMethodUsed: erase the canonical method from the unused
set, silently ignoring a null (here: absent) method. -/
def FlagMethodUsed (unused : Finset Nat) (m : Option Nat) : Finset Nat :=
  match m with
  | none => unused
  | some c => unused.erase c

mutual

/-- Traversal of one expression subtree by DeclRemover: the visitor
VisitMemberExpr fires on every MemberExpr node and flags its member
declaration used; every other node only recurses into its children (the
callee MemberExpr of a CXXMemberCallExpr is one of those children). -/
def removeUses (s : Finset Nat) : Expr → Finset Nat
  | .memberExpr member children => removeUsesList (FlagMethodUsed s member) children
  | .declRefExpr _ => s
  | .callExpr _ callee args => removeUsesList (removeUses s callee) args
  | .otherExpr children => removeUsesList s children

/-- Traversal of a list of expression subtrees in order. -/
def removeUsesList (s : Finset Nat) : List Expr → Finset Nat
  | [] => s
  | e :: es => removeUsesList (removeUses s e) es

end

mutual

/-- The sequence of FlagMethodUsed operations performed while traversing
one expression subtree: one entry per MemberExpr node, in visit order. -/
def visitSeq : Expr → List (Option Nat)
  | .memberExpr member children => member :: visitSeqList children
  | .declRefExpr _ => []
  | .callExpr _ callee args => visitSeq callee ++ visitSeqList args
  | .otherExpr children => visitSeqList children

/-- The flag-used operation sequence of a list of subtrees. -/
def visitSeqList : List Expr → List (Option Nat)
  | [] => []
  | e :: es => visitSeq e ++ visitSeqList es

end

/-- Replaying a flat sequence of flag-used operations on a set. -/
def removeFlat (s : Finset Nat) (l : List (Option Nat)) : Finset Nat :=
  l.foldl FlagMethodUsed s

/-- DeclCollector::IsTemplated: the method is a function template
(getDescribedFunctionTemplate is non-null). -/
def IsTemplated (tu : TranslationUnit) (m : Nat) : Bool :=
  (tu.methodAttrs m).hasDescribedTemplate

/-- One step of the collector's traversal, acting on a single declaration
node.  State is (undefinedClasses, privateMethods).  VisitCXXMethodDecl:
canonicalize, mark the parent undefined when the method has no body, and
insert private methods subject to the template gate.  VisitCXXRecordDecl:
canonicalize and mark undefined when the class has no definition. -/
def collectStep (tu : TranslationUnit) (templates : Bool)
    (st : Finset Nat × Finset Nat) (d : Decl) : Finset Nat × Finset Nat :=
  match d with
  | .methodDecl mid =>
    ((if (tu.methodAttrs mid).isDefined = false then
        Insert st.1 (tu.recordAttrs (tu.methodAttrs mid).parent).recordType
      else st.1),
     (if (tu.methodAttrs mid).access = Access.AS_private ∧
          (IsTemplated tu mid = false ∨ templates = true) then
        insert mid st.2
      else st.2))
  | .recordDecl rid =>
    if (tu.recordAttrs rid).hasDefinition = false then
      (Insert st.1 (tu.recordAttrs rid).recordType, st.2)
    else st
  | .otherDecl => st

/-- DeclCollector traversal over the whole declaration tree, producing the
UndefinedClassSet and the PrivateMethodSet. -/
def collect (tu : TranslationUnit) (templates : Bool) :
    Finset Nat × Finset Nat :=
  tu.decls.foldl (collectStep tu templates) (∅, ∅)

/-- DeadConsumer::IsDefined: the class is not in the undefined set, every
friend function's canonical declaration is defined, and no friend type is
in the undefined set. -/
def IsDefined (tu : TranslationUnit) (undefined : Finset Nat) (r : Nat) :
    Bool :=
  if Contains undefined (tu.recordAttrs r).recordType then false
  else (tu.recordAttrs r).friends.all (fun f =>
    (match f.friendFunctionDefined with
     | some fdef => fdef
     | none => true)
    && (match f.friendType with
        | some qt => !(Contains undefined qt)
        | none => true))

/-- DeadConsumer::WarnUnused: for every method remaining in the unused set,
emit a diagnostic unless its owning class fails the definedness check or
the method is a constructor or destructor.  The result is the set of
method identities that receive a diagnostic (one diagnostic each). -/
def WarnUnused (tu : TranslationUnit) (undefined : Finset Nat)
    (unused : Finset Nat) : Finset Nat :=
  unused.filter (fun mid =>
    IsDefined tu undefined (tu.methodAttrs mid).parent = true ∧
    (tu.methodAttrs mid).isCtor = false ∧
    (tu.methodAttrs mid).isDtor = false)

/-- DeadConsumer::HandleTranslationUnit: collect, remove uses, report.  The
result is the set of warned method identities. -/
def deadMethodWarnings (tu : TranslationUnit) (templates : Bool) :
    Finset Nat :=
  let c := collect tu templates
  WarnUnused tu c.1 (removeUsesList c.2 tu.exprs)

/-- Outcome of DeadAction::ParseArgs: whether it returned true, the final
include-template-methods flag, whether ShowHelp ran, and the arguments
reported by MakeArgumentError as error-severity diagnostics. -/
structure ParseOutcome where
  success : Bool
  includeTemplateMethods : Bool
  helpShown : Bool
  argErrors : List String
deriving DecidableEq

/-- The argument loop of DeadAction::ParseArgs, carried out from a given
state of the two local flags: an unrecognized argument reports an error
diagnostic and returns false immediately (so ShowHelp never runs on that
path); otherwise ShowHelp runs at the end iff help was seen. -/
def parseArgsFrom : List String → Bool → Bool → ParseOutcome
  | [], inc, sh =>
    { success := true, includeTemplateMethods := inc, helpShown := sh,
      argErrors := [] }
  | a :: rest, inc, sh =>
    if a = "include-template-methods" then parseArgsFrom rest true sh
    else if a = "help" then parseArgsFrom rest inc true
    else
      { success := false, includeTemplateMethods := inc, helpShown := false,
        argErrors := [a] }

/-- DeadAction::ParseArgs, starting from the initial flag values. -/
def ParseArgs (args : List String) : ParseOutcome :=
  parseArgsFrom args false false

/-- A declaration node that puts the class-type identity t into the
UndefinedClassSet when the collector visits it: a method declaration
without a body whose owning class has record type t, or a class
declaration without a definition whose record type is t. -/
def MarksUndefined (tu : TranslationUnit) (d : Decl) (t : Nat) : Prop :=
  match d with
  | .methodDecl mid =>
    (tu.methodAttrs mid).isDefined = false ∧
    (tu.recordAttrs (tu.methodAttrs mid).parent).recordType = some t
  | .recordDecl rid =>
    (tu.recordAttrs rid).hasDefinition = false ∧
    (tu.recordAttrs rid).recordType = some t
  | .otherDecl => False

/-- A declaration node that puts method identity m into the
PrivateMethodSet when the collector visits it. -/
def CollectsPrivate (tu : TranslationUnit) (templates : Bool) (d : Decl)
    (m : Nat) : Prop :=
  match d with
  | .methodDecl mid =>
    mid = m ∧ (tu.methodAttrs mid).access = Access.AS_private ∧
    (IsTemplated tu mid = false ∨ templates = true)
  | .recordDecl _ => False
  | .otherDecl => False

/-- Subexpression occurrence: the first expression occurs somewhere inside
the second one's tree. -/
inductive Occurs (p : Expr) : Expr → Prop where
  | refl : Occurs p p
  | inMember {m : Option Nat} {cs : List Expr} {e : Expr} :
      e ∈ cs → Occurs p e → Occurs p (.memberExpr m cs)
  | inCallee {b : Bool} {c : Expr} {args : List Expr} :
      Occurs p c → Occurs p (.callExpr b c args)
  | inArg {b : Bool} {c : Expr} {args : List Expr} {e : Expr} :
      e ∈ args → Occurs p e → Occurs p (.callExpr b c args)
  | inOther {cs : List Expr} {e : Expr} :
      e ∈ cs → Occurs p e → Occurs p (.otherExpr cs)

/-- Membership after a single flag-used operation. -/
theorem mem_FlagMethodUsed (s : Finset Nat) (o : Option Nat) (m : Nat) :
    m ∈ FlagMethodUsed s o ↔ m ∈ s ∧ o ≠ some m := by
  cases o with
  | none => simp [FlagMethodUsed]
  | some c =>
    simp only [FlagMethodUsed, Finset.mem_erase, ne_eq, Option.some.injEq]
    constructor
    · rintro ⟨h1, h2⟩
      exact ⟨h2, fun hc => h1 hc.symm⟩
    · rintro ⟨h1, h2⟩
      exact ⟨fun hc => h2 hc.symm, h1⟩

/-- Membership after replaying a flat sequence of flag-used operations. -/
theorem mem_removeFlat (l : List (Option Nat)) (s : Finset Nat) (m : Nat) :
    m ∈ removeFlat s l ↔ m ∈ s ∧ some m ∉ l := by
  induction l generalizing s with
  | nil => simp [removeFlat]
  | cons o rest ih =>
    have h : removeFlat s (o :: rest) = removeFlat (FlagMethodUsed s o) rest :=
      rfl
    rw [h, ih, mem_FlagMethodUsed, List.mem_cons]
    constructor
    · rintro ⟨⟨hs, hne⟩, hnr⟩
      exact ⟨hs, fun hmem => hmem.elim (fun he => hne he.symm) hnr⟩
    · rintro ⟨hs, hn⟩
      exact ⟨⟨hs, fun he => hn (Or.inl he.symm)⟩, fun hr => hn (Or.inr hr)⟩

/-- Replaying a concatenation replays the parts in order. -/
theorem removeFlat_append (s : Finset Nat) (l1 l2 : List (Option Nat)) :
    removeFlat s (l1 ++ l2) = removeFlat (removeFlat s l1) l2 := by
  simp [removeFlat, List.foldl_append]

mutual

/-- The tree traversal of DeclRemover equals replaying its visit-order
sequence of flag-used operations. -/
theorem removeUses_eq_flat : ∀ (s : Finset Nat) (e : Expr),
    removeUses s e = removeFlat s (visitSeq e)
  | s, .memberExpr member children => by
    simp only [removeUses, visitSeq]
    rw [removeUsesList_eq_flat (FlagMethodUsed s member) children]
    rfl
  | s, .declRefExpr d => by
    simp only [removeUses, visitSeq]
    rfl
  | s, .callExpr b callee args => by
    simp only [removeUses, visitSeq]
    rw [removeUsesList_eq_flat (removeUses s callee) args,
      removeUses_eq_flat s callee, removeFlat_append]
  | s, .otherExpr children => by
    simp only [removeUses, visitSeq]
    exact removeUsesList_eq_flat s children

/-- The forest traversal of DeclRemover equals replaying its visit-order
sequence of flag-used operations. -/
theorem removeUsesList_eq_flat : ∀ (s : Finset Nat) (es : List Expr),
    removeUsesList s es = removeFlat s (visitSeqList es)
  | s, [] => by
    simp only [removeUsesList, visitSeqList]
    rfl
  | s, e :: es => by
    simp only [removeUsesList, visitSeqList]
    rw [removeUsesList_eq_flat (removeUses s e) es, removeUses_eq_flat s e,
      removeFlat_append]

end

/-- Membership in the remaining set after the remover's forest traversal. -/
theorem mem_removeUsesList (s : Finset Nat) (es : List Expr) (m : Nat) :
    m ∈ removeUsesList s es ↔ m ∈ s ∧ some m ∉ visitSeqList es := by
  rw [removeUsesList_eq_flat, mem_removeFlat]

/-- The visit sequence of a forest collects the visit sequences of its
trees. -/
theorem mem_visitSeqList (es : List Expr) (x : Option Nat) :
    x ∈ visitSeqList es ↔ ∃ e ∈ es, x ∈ visitSeq e := by
  induction es with
  | nil => simp [visitSeqList]
  | cons e es ih =>
    simp only [visitSeqList, List.mem_append, ih, List.mem_cons]
    constructor
    · rintro (hx | ⟨e2, he2, hx⟩)
      · exact ⟨e, Or.inl rfl, hx⟩
      · exact ⟨e2, Or.inr he2, hx⟩
    · rintro ⟨e2, (rfl | he2), hx⟩
      · exact Or.inl hx
      · exact Or.inr ⟨e2, he2, hx⟩

/-- Every flag-used operation of a subexpression is performed when the
enclosing expression is traversed. -/
theorem mem_visitSeq_of_occurs {p e : Expr} (h : Occurs p e) :
    ∀ x, x ∈ visitSeq p → x ∈ visitSeq e := by
  induction h with
  | refl => exact fun x hx => hx
  | inMember hmem _ ih =>
    intro x hx
    simp only [visitSeq, List.mem_cons]
    exact Or.inr ((mem_visitSeqList _ _).mpr ⟨_, hmem, ih x hx⟩)
  | inCallee _ ih =>
    intro x hx
    simp only [visitSeq, List.mem_append]
    exact Or.inl (ih x hx)
  | inArg hmem _ ih =>
    intro x hx
    simp only [visitSeq, List.mem_append]
    exact Or.inr ((mem_visitSeqList _ _).mpr ⟨_, hmem, ih x hx⟩)
  | inOther hmem _ ih =>
    intro x hx
    simp only [visitSeq]
    exact (mem_visitSeqList _ _).mpr ⟨_, hmem, ih x hx⟩

/-- Membership in the Insert of an optional canonical type pointer. -/
theorem mem_Insert (s : Finset Nat) (o : Option Nat) (t : Nat) :
    t ∈ Insert s o ↔ t ∈ s ∨ o = some t := by
  cases o with
  | none => simp [Insert]
  | some u =>
    simp only [Insert, Finset.mem_insert, Option.some.injEq]
    constructor
    · rintro (rfl | h)
      · exact Or.inr rfl
      · exact Or.inl h
    · rintro (h | rfl)
      · exact Or.inr h
      · exact Or.inl rfl

/-- One collector step adds exactly the class-type identities marked by the
visited declaration to the undefined set. -/
theorem mem_collectStep_fst (tu : TranslationUnit) (b : Bool)
    (st : Finset Nat × Finset Nat) (d : Decl) (t : Nat) :
    t ∈ (collectStep tu b st d).1 ↔ t ∈ st.1 ∨ MarksUndefined tu d t := by
  cases d with
  | methodDecl mid =>
    simp only [collectStep, MarksUndefined]
    by_cases hdef : (tu.methodAttrs mid).isDefined = false
    · simp [hdef, mem_Insert]
    · simp [hdef]
  | recordDecl rid =>
    simp only [collectStep, MarksUndefined]
    by_cases hd : (tu.recordAttrs rid).hasDefinition = false
    · simp [hd, mem_Insert]
    · simp [hd]
  | otherDecl => simp [collectStep, MarksUndefined]

/-- One collector step adds exactly the private methods collected from the
visited declaration to the private-method set. -/
theorem mem_collectStep_snd (tu : TranslationUnit) (b : Bool)
    (st : Finset Nat × Finset Nat) (d : Decl) (m : Nat) :
    m ∈ (collectStep tu b st d).2 ↔ m ∈ st.2 ∨ CollectsPrivate tu b d m := by
  cases d with
  | methodDecl mid =>
    simp only [collectStep, CollectsPrivate]
    by_cases hp : (tu.methodAttrs mid).access = Access.AS_private ∧
        (IsTemplated tu mid = false ∨ b = true)
    · rw [if_pos hp]
      simp only [Finset.mem_insert]
      constructor
      · rintro (rfl | h)
        · exact Or.inr ⟨rfl, hp⟩
        · exact Or.inl h
      · rintro (h | ⟨rfl, _⟩)
        · exact Or.inr h
        · exact Or.inl rfl
    · rw [if_neg hp]
      constructor
      · exact Or.inl
      · rintro (h | ⟨rfl, hc⟩)
        · exact h
        · exact absurd hc hp
  | recordDecl rid =>
    simp only [collectStep, CollectsPrivate]
    by_cases hd : (tu.recordAttrs rid).hasDefinition = false
    · simp [hd]
    · simp [hd]
  | otherDecl => simp [collectStep, CollectsPrivate]

/-- Folding the collector over a list of declarations accumulates exactly
the marked class-type identities. -/
theorem mem_foldl_collect_fst (tu : TranslationUnit) (b : Bool)
    (ds : List Decl) :
    ∀ (st : Finset Nat × Finset Nat) (t : Nat),
      t ∈ (List.foldl (collectStep tu b) st ds).1 ↔
        t ∈ st.1 ∨ ∃ d ∈ ds, MarksUndefined tu d t := by
  induction ds with
  | nil => simp
  | cons d ds ih =>
    intro st t
    simp only [List.foldl_cons]
    rw [ih, mem_collectStep_fst]
    simp only [List.mem_cons]
    constructor
    · rintro ((h | h) | ⟨d2, hd2, h⟩)
      · exact Or.inl h
      · exact Or.inr ⟨d, Or.inl rfl, h⟩
      · exact Or.inr ⟨d2, Or.inr hd2, h⟩
    · rintro (h | ⟨d2, (rfl | hd2), h⟩)
      · exact Or.inl (Or.inl h)
      · exact Or.inl (Or.inr h)
      · exact Or.inr ⟨d2, hd2, h⟩

/-- Folding the collector over a list of declarations accumulates exactly
the collected private methods. -/
theorem mem_foldl_collect_snd (tu : TranslationUnit) (b : Bool)
    (ds : List Decl) :
    ∀ (st : Finset Nat × Finset Nat) (m : Nat),
      m ∈ (List.foldl (collectStep tu b) st ds).2 ↔
        m ∈ st.2 ∨ ∃ d ∈ ds, CollectsPrivate tu b d m := by
  induction ds with
  | nil => simp
  | cons d ds ih =>
    intro st m
    simp only [List.foldl_cons]
    rw [ih, mem_collectStep_snd]
    simp only [List.mem_cons]
    constructor
    · rintro ((h | h) | ⟨d2, hd2, h⟩)
      · exact Or.inl h
      · exact Or.inr ⟨d, Or.inl rfl, h⟩
      · exact Or.inr ⟨d2, Or.inr hd2, h⟩
    · rintro (h | ⟨d2, (rfl | hd2), h⟩)
      · exact Or.inl (Or.inl h)
      · exact Or.inl (Or.inr h)
      · exact Or.inr ⟨d2, hd2, h⟩

/-- Membership in the collector's UndefinedClassSet. -/
theorem mem_collect_undefined (tu : TranslationUnit) (b : Bool) (t : Nat) :
    t ∈ (collect tu b).1 ↔ ∃ d ∈ tu.decls, MarksUndefined tu d t := by
  rw [collect, mem_foldl_collect_fst]
  simp

/-- Membership in the collector's PrivateMethodSet. -/
theorem mem_collect_private (tu : TranslationUnit) (b : Bool) (m : Nat) :
    m ∈ (collect tu b).2 ↔
      Decl.methodDecl m ∈ tu.decls ∧
      (tu.methodAttrs m).access = Access.AS_private ∧
      (IsTemplated tu m = false ∨ b = true) := by
  rw [collect, mem_foldl_collect_snd]
  simp only [Finset.not_mem_empty, false_or]
  constructor
  · rintro ⟨d, hd, hc⟩
    cases d with
    | methodDecl mid =>
      obtain ⟨rfl, h2, h3⟩ := hc
      exact ⟨hd, h2, h3⟩
    | recordDecl rid => exact absurd hc id
    | otherDecl => exact absurd hc id
  · rintro ⟨h1, h2, h3⟩
    exact ⟨Decl.methodDecl m, h1, rfl, h2, h3⟩

/-- Membership in the reporter's warning set. -/
theorem mem_WarnUnused (tu : TranslationUnit) (u s : Finset Nat) (m : Nat) :
    m ∈ WarnUnused tu u s ↔
      m ∈ s ∧ IsDefined tu u (tu.methodAttrs m).parent = true ∧
      (tu.methodAttrs m).isCtor = false ∧ (tu.methodAttrs m).isDtor = false := by
  rw [WarnUnused, Finset.mem_filter]

/-- A warned method is in the warning set of the full pipeline iff it
survives collection and removal and passes both report-time checks. -/
theorem mem_deadMethodWarnings (tu : TranslationUnit) (b : Bool) (m : Nat) :
    m ∈ deadMethodWarnings tu b ↔
      m ∈ removeUsesList (collect tu b).2 tu.exprs ∧
      IsDefined tu (collect tu b).1 (tu.methodAttrs m).parent = true ∧
      (tu.methodAttrs m).isCtor = false ∧
      (tu.methodAttrs m).isDtor = false := by
  rw [deadMethodWarnings, mem_WarnUnused]

/-- A class judged defined by the reporter is not in the undefined set. -/
theorem not_contains_of_IsDefined {tu : TranslationUnit}
    {undefined : Finset Nat} {r : Nat}
    (h : IsDefined tu undefined r = true) :
    Contains undefined (tu.recordAttrs r).recordType = false := by
  by_cases hc : Contains undefined (tu.recordAttrs r).recordType = true
  · rw [IsDefined, if_pos hc] at h
    exact absurd h (by simp)
  · exact Bool.eq_false_iff.mpr hc

/-- A friend function without a body, or a friend type in the undefined
set, makes the reporter's definedness check fail. -/
theorem IsDefined_eq_false_of_friend {tu : TranslationUnit}
    {undefined : Finset Nat} {r : Nat} {f : FriendEntry}
    (hf : f ∈ (tu.recordAttrs r).friends)
    (hbad : f.friendFunctionDefined = some false ∨
      ∃ t, f.friendType = some (some t) ∧ t ∈ undefined) :
    IsDefined tu undefined r = false := by
  rw [IsDefined]
  by_cases hc : Contains undefined (tu.recordAttrs r).recordType = true
  · rw [if_pos hc]
  · rw [if_neg hc]
    rw [Bool.eq_false_iff]
    intro hall
    have hfok := List.all_eq_true.mp hall f hf
    rcases hbad with hfun | ⟨t, hft, htu⟩
    · rw [hfun] at hfok
      simp at hfok
    · rw [hft] at hfok
      simp only [Bool.and_eq_true, Bool.not_eq_true'] at hfok
      have : Contains undefined (some t) = true := by simp [Contains, htu]
      rw [this] at hfok
      exact absurd hfok.2 (by simp)

/-- A class not in the undefined set with no friends passes the
definedness check. -/
theorem IsDefined_of_no_friends {tu : TranslationUnit}
    {undefined : Finset Nat} {r : Nat}
    (hc : Contains undefined (tu.recordAttrs r).recordType = false)
    (hfr : (tu.recordAttrs r).friends = []) :
    IsDefined tu undefined r = true := by
  rw [IsDefined, if_neg (by simp [hc]), hfr]
  rfl

/-- Invariant of the argument loop: an unrecognized argument anywhere in
the remaining argument list forces failure, suppresses ShowHelp, and makes
the reported error name an unrecognized argument of the list. -/
theorem parseArgsFrom_invalid :
    ∀ (args : List String) (inc sh : Bool),
      (∃ a ∈ args, a ≠ "include-template-methods" ∧ a ≠ "help") →
      (parseArgsFrom args inc sh).success = false ∧
      (parseArgsFrom args inc sh).helpShown = false ∧
      ∃ e, (parseArgsFrom args inc sh).argErrors = [e] ∧ e ∈ args ∧
        e ≠ "include-template-methods" ∧ e ≠ "help" := by
  intro args
  induction args with
  | nil => rintro inc sh ⟨a, ha, _⟩; exact absurd ha (List.not_mem_nil a)
  | cons a rest ih =>
    rintro inc sh ⟨x, hx, hx1, hx2⟩
    by_cases h1 : a = "include-template-methods"
    · rw [parseArgsFrom, if_pos h1]
      have hxr : x ∈ rest := by
        rcases List.mem_cons.mp hx with rfl | hr
        · exact absurd h1 hx1
        · exact hr
      obtain ⟨hs, hh, e, he, her, he1, he2⟩ := ih true sh ⟨x, hxr, hx1, hx2⟩
      exact ⟨hs, hh, e, he, List.mem_cons_of_mem a her, he1, he2⟩
    · by_cases h2 : a = "help"
      · rw [parseArgsFrom, if_neg h1, if_pos h2]
        have hxr : x ∈ rest := by
          rcases List.mem_cons.mp hx with rfl | hr
          · exact absurd h2 hx2
          · exact hr
        obtain ⟨hs, hh, e, he, her, he1, he2⟩ := ih inc true ⟨x, hxr, hx1, hx2⟩
        exact ⟨hs, hh, e, he, List.mem_cons_of_mem a her, he1, he2⟩
      · rw [parseArgsFrom, if_neg h1, if_neg h2]
        exact ⟨rfl, rfl, a, rfl, List.mem_cons_self a rest, h1, h2⟩

/-- A plain private method with a body, used by the concrete test units:
not a template, not a constructor or destructor, owned by class 0. -/
def attrsPlain : MethodAttrs :=
  { parent := 0, isDefined := true, access := Access.AS_private,
    hasDescribedTemplate := false, isCtor := false, isDtor := false }

/-- A fully defined friendless class whose record type identity equals its
declaration identity. -/
def recPlain (r : Nat) : RecordAttrs :=
  { recordType := some r, hasDefinition := true, friends := [] }

/-- A unit with one private method (identity 0) on the fully defined
friendless class 0, referenced only by a bare value reference (a
DeclRefExpr naming the method as a value). -/
def tuBareRef : TranslationUnit :=
  { methodAttrs := fun _ => attrsPlain,
    recordAttrs := recPlain,
    decls := [Decl.methodDecl 0, Decl.recordDecl 0],
    exprs := [Expr.declRefExpr (some 0)] }

/-- A unit like tuBareRef but whose only reference to the method is a
direct member-function call (a CXXMemberCallExpr whose callee MemberExpr
names the method). -/
def tuMemberCall : TranslationUnit :=
  { methodAttrs := fun _ => attrsPlain,
    recordAttrs := recPlain,
    decls := [Decl.methodDecl 0, Decl.recordDecl 0],
    exprs := [Expr.callExpr true (Expr.memberExpr (some 0) []) []] }

/-- A unit with one unused private method on a fully defined class that
declares a friend function without a body in the unit. -/
def tuFriendGate : TranslationUnit :=
  { methodAttrs := fun _ => attrsPlain,
    recordAttrs := fun r =>
      { recordType := some r, hasDefinition := true,
        friends := [{ friendFunctionDefined := some false,
                      friendType := none }] },
    decls := [Decl.methodDecl 0, Decl.recordDecl 0],
    exprs := [] }

/-- A unit with one unused private template method on the fully defined
friendless class 0. -/
def tuTemplate : TranslationUnit :=
  { methodAttrs := fun _ =>
      { attrsPlain with hasDescribedTemplate := true },
    recordAttrs := recPlain,
    decls := [Decl.methodDecl 0, Decl.recordDecl 0],
    exprs := [] }

/-- A unit with only a definition-less class declaration (identity 1). -/
def tuUndefinedClass : TranslationUnit :=
  { methodAttrs := fun _ => attrsPlain,
    recordAttrs := fun r =>
      if r = 1 then
        { recordType := some 1, hasDefinition := false, friends := [] }
      else recPlain r,
    decls := [Decl.recordDecl 1],
    exprs := [] }

/-- A unit with one unused private constructor on the fully defined
friendless class 0. -/
def tuCtor : TranslationUnit :=
  { methodAttrs := fun _ => { attrsPlain with isCtor := true },
    recordAttrs := recPlain,
    decls := [Decl.methodDecl 0, Decl.recordDecl 0],
    exprs := [] }

/-- A unit with one unused private method on the fully defined friendless
class 0 and no expressions, so the method is warned about. -/
def tuWarned : TranslationUnit :=
  { methodAttrs := fun _ => attrsPlain,
    recordAttrs := recPlain,
    decls := [Decl.methodDecl 0, Decl.recordDecl 0],
    exprs := [] }

/-- C1 (amended): a private method in the PrivateMethodSet that is
referenced anywhere in the unit by a direct member-function call (a member
call expression whose callee member expression names the method) or by a
member-access expression is absent from the remaining private-method set
after the Usage Remover completes.  The claim's third form, a bare value
reference to the method's identity, is not recognized by the remover of
the most evolved revision (it visits only MemberExpr nodes) and is
therefore dropped from the statement; see the counterexample. -/
theorem C1_member_access_erasure (tu : TranslationUnit) (templates : Bool)
    (mid : Nat)
    (_hm : mid ∈ (collect tu templates).2)
    (huse : ∃ e ∈ tu.exprs,
      (∃ cs args,
        Occurs (Expr.callExpr true (Expr.memberExpr (some mid) cs) args) e) ∨
      (∃ cs, Occurs (Expr.memberExpr (some mid) cs) e)) :
    mid ∉ removeUsesList (collect tu templates).2 tu.exprs := by
  intro hmem
  rw [mem_removeUsesList] at hmem
  obtain ⟨e, he, hocc⟩ := huse
  apply hmem.2
  apply (mem_visitSeqList tu.exprs (some mid)).mpr
  refine ⟨e, he, ?_⟩
  rcases hocc with ⟨cs, args, ho⟩ | ⟨cs, ho⟩
  · exact mem_visitSeq_of_occurs ho (some mid) (by simp [visitSeq])
  · exact mem_visitSeq_of_occurs ho (some mid) (by simp [visitSeq])

/-- Witness for C1: in the unit whose only expression is a direct member
call of method 0, the collected private method 0 is erased. -/
theorem C1_witness :
    (0 : Nat) ∈ (collect tuMemberCall false).2 ∧
    (0 : Nat) ∉
      removeUsesList (collect tuMemberCall false).2 tuMemberCall.exprs :=
  ⟨by decide,
    C1_member_access_erasure tuMemberCall false 0 (by decide)
      ⟨Expr.callExpr true (Expr.memberExpr (some 0) []) [],
        List.mem_singleton.mpr rfl, Or.inl ⟨[], [], Occurs.refl⟩⟩⟩

/-- Counterexample to C1 as stated: method 0 is a private method of the
fully defined friendless class 0 and is referenced only by a bare value
reference (a DeclRefExpr naming the method as a value), yet it is still in
the remaining private-method set after the Usage Remover completes — and
is even warned about — because the remover visits only MemberExpr nodes. -/
theorem C1_counterexample :
    (tuBareRef.methodAttrs 0).access = Access.AS_private ∧
    tuBareRef.exprs = [Expr.declRefExpr (some 0)] ∧
    (0 : Nat) ∈ (collect tuBareRef false).2 ∧
    (0 : Nat) ∈ removeUsesList (collect tuBareRef false).2 tuBareRef.exprs ∧
    (0 : Nat) ∈ deadMethodWarnings tuBareRef false :=
  ⟨rfl, rfl, by decide, by decide, by decide⟩

/-- C2: a private method that remains in the private-method set after
usage removal, on a class whose definition is visible, receives no
diagnostic if the class declares a friend function lacking a body in the
unit or a friend type that is in the UndefinedClassSet. -/
theorem C2_friend_gating (tu : TranslationUnit) (b : Bool) (mid : Nat)
    (_hrem : mid ∈ removeUsesList (collect tu b).2 tu.exprs)
    (_hdef : (tu.recordAttrs (tu.methodAttrs mid).parent).hasDefinition = true)
    (hfriend : ∃ f ∈ (tu.recordAttrs (tu.methodAttrs mid).parent).friends,
        f.friendFunctionDefined = some false ∨
        ∃ t, f.friendType = some (some t) ∧ t ∈ (collect tu b).1) :
    mid ∉ deadMethodWarnings tu b := by
  intro hw
  rw [mem_deadMethodWarnings] at hw
  obtain ⟨f, hf, hbad⟩ := hfriend
  have hfalse := IsDefined_eq_false_of_friend hf hbad
  have htrue := hw.2.1
  rw [hfalse] at htrue
  exact absurd htrue (by simp)

/-- Witness for C2: the unused private method 0 of the fully defined class
0, which declares a body-less friend function, is not warned about. -/
theorem C2_witness : (0 : Nat) ∉ deadMethodWarnings tuFriendGate false :=
  C2_friend_gating tuFriendGate false 0 (by decide) (by decide)
    ⟨{ friendFunctionDefined := some false, friendType := none },
      by decide, Or.inl rfl⟩

/-- C3: an option list containing a string other than
include-template-methods and help makes ParseArgs fail: it returns false
(so the pass does not run for that invocation), and the error diagnostics
it reported name an unrecognized argument of the list. -/
theorem C3_invalid_argument (args : List String) (a : String)
    (ha : a ∈ args) (h1 : a ≠ "include-template-methods")
    (h2 : a ≠ "help") :
    (ParseArgs args).success = false ∧
    (ParseArgs args).argErrors ≠ [] ∧
    ∀ e ∈ (ParseArgs args).argErrors,
      e ∈ args ∧ e ≠ "include-template-methods" ∧ e ≠ "help" := by
  obtain ⟨hs, hh, e, he, her, he1, he2⟩ :=
    parseArgsFrom_invalid args false false ⟨a, ha, h1, h2⟩
  refine ⟨hs, ?_, ?_⟩
  · rw [ParseArgs, he]
    simp
  · intro x hx
    rw [ParseArgs, he, List.mem_singleton] at hx
    subst hx
    exact ⟨her, he1, he2⟩

/-- Witness for C3: the single unrecognized argument bad-arg makes the
pass initialization fail with an error naming it. -/
theorem C3_witness :
    (ParseArgs ["bad-arg"]).success = false ∧
    (ParseArgs ["bad-arg"]).argErrors ≠ [] ∧
    ∀ e ∈ (ParseArgs ["bad-arg"]).argErrors,
      e ∈ ["bad-arg"] ∧ e ≠ "include-template-methods" ∧ e ≠ "help" :=
  C3_invalid_argument ["bad-arg"] "bad-arg" (by decide) (by decide)
    (by decide)

/-- C4: an unused private template method of a fully defined friendless
class receives a warning when include-template-methods is true (one
diagnostic, since the reporter emits one diagnostic per member of the
warning set), and with the option false the method is not collected into
the PrivateMethodSet at all and receives no warning. -/
theorem C4_template_option (tu : TranslationUnit) (mid t : Nat)
    (hd : Decl.methodDecl mid ∈ tu.decls)
    (hp : (tu.methodAttrs mid).access = Access.AS_private)
    (htm : (tu.methodAttrs mid).hasDescribedTemplate = true)
    (hct : (tu.methodAttrs mid).isCtor = false)
    (hdt : (tu.methodAttrs mid).isDtor = false)
    (hrt : (tu.recordAttrs (tu.methodAttrs mid).parent).recordType = some t)
    (hfr : (tu.recordAttrs (tu.methodAttrs mid).parent).friends = [])
    (hnotund : t ∉ (collect tu true).1)
    (hunused : some mid ∉ visitSeqList tu.exprs) :
    mid ∈ deadMethodWarnings tu true ∧
    mid ∉ (collect tu false).2 ∧
    mid ∉ deadMethodWarnings tu false := by
  have hmemP : mid ∈ (collect tu true).2 :=
    (mem_collect_private tu true mid).mpr ⟨hd, hp, Or.inr rfl⟩
  have hrem : mid ∈ removeUsesList (collect tu true).2 tu.exprs :=
    (mem_removeUsesList _ _ _).mpr ⟨hmemP, hunused⟩
  have hcontains : Contains (collect tu true).1
      (tu.recordAttrs (tu.methodAttrs mid).parent).recordType = false := by
    rw [hrt]
    simp [Contains, hnotund]
  have hnotcol : mid ∉ (collect tu false).2 := by
    intro hmem
    rcases ((mem_collect_private tu false mid).mp hmem).2.2 with hf | hf
    · rw [IsTemplated, htm] at hf
      exact absurd hf (by simp)
    · exact absurd hf (by simp)
  refine ⟨(mem_deadMethodWarnings tu true mid).mpr
    ⟨hrem, IsDefined_of_no_friends hcontains hfr, hct, hdt⟩, hnotcol, ?_⟩
  intro hw
  rw [mem_deadMethodWarnings] at hw
  exact hnotcol ((mem_removeUsesList _ _ _).mp hw.1).1

/-- Witness for C4: the unused private template method 0 of the defined
friendless class 0 is warned under include-template-methods and neither
collected nor warned without it. -/
theorem C4_witness :
    (0 : Nat) ∈ deadMethodWarnings tuTemplate true ∧
    (0 : Nat) ∉ (collect tuTemplate false).2 ∧
    (0 : Nat) ∉ deadMethodWarnings tuTemplate false :=
  C4_template_option tuTemplate 0 0 (by decide) (by decide) (by decide)
    (by decide) (by decide) (by decide) (by decide) (by decide) (by decide)

/-- C5: a class whose record type identity is t is outside the
UndefinedClassSet when its definition body is visible and every member
method declared in the unit for it has a body; conversely a class
declaration without a definition body, or a declared member method without
a body, puts t into the UndefinedClassSet. -/
theorem C5_definedness (tu : TranslationUnit) (b : Bool) (t : Nat) :
    ((∀ mid, Decl.methodDecl mid ∈ tu.decls →
        (tu.recordAttrs (tu.methodAttrs mid).parent).recordType = some t →
        (tu.methodAttrs mid).isDefined = true) →
      (∀ rid, Decl.recordDecl rid ∈ tu.decls →
        (tu.recordAttrs rid).recordType = some t →
        (tu.recordAttrs rid).hasDefinition = true) →
      t ∉ (collect tu b).1) ∧
    (∀ rid, Decl.recordDecl rid ∈ tu.decls →
      (tu.recordAttrs rid).recordType = some t →
      (tu.recordAttrs rid).hasDefinition = false →
      t ∈ (collect tu b).1) ∧
    (∀ mid, Decl.methodDecl mid ∈ tu.decls →
      (tu.recordAttrs (tu.methodAttrs mid).parent).recordType = some t →
      (tu.methodAttrs mid).isDefined = false →
      t ∈ (collect tu b).1) := by
  refine ⟨?_, ?_, ?_⟩
  · intro hm hr hmem
    rcases (mem_collect_undefined tu b t).mp hmem with ⟨d, hd, hmark⟩
    cases d with
    | methodDecl mid =>
      simp only [MarksUndefined] at hmark
      obtain ⟨h1, h2⟩ := hmark
      rw [hm mid hd h2] at h1
      exact absurd h1 (by simp)
    | recordDecl rid =>
      simp only [MarksUndefined] at hmark
      obtain ⟨h1, h2⟩ := hmark
      rw [hr rid hd h2] at h1
      exact absurd h1 (by simp)
    | otherDecl => exact hmark
  · intro rid hd h2 h1
    exact (mem_collect_undefined tu b t).mpr ⟨Decl.recordDecl rid, hd, h1, h2⟩
  · intro mid hd h2 h1
    exact (mem_collect_undefined tu b t).mpr ⟨Decl.methodDecl mid, hd, h1, h2⟩

/-- Witness for C5: in a unit declaring only the body-less class 1, the
fully defined type 0 has no marking declaration and stays out of the
undefined set, while type 1 is in it. -/
theorem C5_witness :
    (0 : Nat) ∉ (collect tuUndefinedClass false).1 ∧
    (1 : Nat) ∈ (collect tuUndefinedClass false).1 :=
  ⟨(C5_definedness tuUndefinedClass false 0).1
      (fun mid hmem _ => by simp [tuUndefinedClass] at hmem)
      (fun rid hmem heq => by
        simp [tuUndefinedClass] at hmem
        subst hmem
        simp [tuUndefinedClass] at heq),
    (C5_definedness tuUndefinedClass false 1).2.1 1 (by decide) (by decide)
      (by decide)⟩

/-- C6: a private constructor or destructor is never warned about,
whatever the unit and configuration; yet such a method is still inserted
into the PrivateMethodSet during collection under the same conditions as
any other private method (the exclusion is applied at report time only). -/
theorem C6_ctor_dtor_suppression (tu : TranslationUnit) (b : Bool)
    (mid : Nat) :
    (((tu.methodAttrs mid).isCtor = true ∨
        (tu.methodAttrs mid).isDtor = true) →
      mid ∉ deadMethodWarnings tu b) ∧
    (Decl.methodDecl mid ∈ tu.decls →
      (tu.methodAttrs mid).access = Access.AS_private →
      (IsTemplated tu mid = false ∨ b = true) →
      mid ∈ (collect tu b).2) := by
  constructor
  · intro hcd hw
    rw [mem_deadMethodWarnings] at hw
    rcases hcd with h | h
    · rw [hw.2.2.1] at h
      exact absurd h (by simp)
    · rw [hw.2.2.2] at h
      exact absurd h (by simp)
  · intro hd hp hg
    exact (mem_collect_private tu b mid).mpr ⟨hd, hp, hg⟩

/-- Witness for C6: the unused private constructor 0 of the fully defined
class 0 is collected but not warned about. -/
theorem C6_witness :
    (0 : Nat) ∉ deadMethodWarnings tuCtor false ∧
    (0 : Nat) ∈ (collect tuCtor false).2 :=
  ⟨(C6_ctor_dtor_suppression tuCtor false 0).1 (Or.inl (by decide)),
    (C6_ctor_dtor_suppression tuCtor false 0).2 (by decide) (by decide)
      (Or.inl (by decide))⟩

/-- C7: permuting the sequence of flag-used operations fed to the Usage
Remover never changes the resulting set (each step is an erase, and erases
are idempotent and commute), and likewise permuting the forest of
expression trees it traverses never changes the remaining
private-method set. -/
theorem C7_order_independence (s : Finset Nat) (l l2 : List (Option Nat))
    (es es2 : List Expr) (hl : l.Perm l2) (he : es.Perm es2) :
    removeFlat s l = removeFlat s l2 ∧
    removeUsesList s es = removeUsesList s es2 := by
  have hvis : ∀ x, x ∈ visitSeqList es ↔ x ∈ visitSeqList es2 := by
    intro x
    rw [mem_visitSeqList, mem_visitSeqList]
    constructor
    · rintro ⟨e, hm, hx⟩
      exact ⟨e, he.mem_iff.mp hm, hx⟩
    · rintro ⟨e, hm, hx⟩
      exact ⟨e, he.mem_iff.mpr hm, hx⟩
  constructor
  · apply Finset.ext
    intro m
    rw [mem_removeFlat, mem_removeFlat, hl.mem_iff]
  · apply Finset.ext
    intro m
    rw [mem_removeUsesList, mem_removeUsesList, hvis (some m)]

/-- Witness for C7: swapping two flag-used operations, and swapping two
expression trees, leaves the results unchanged on the set containing
method 0. -/
theorem C7_witness :
    removeFlat (insert 0 ∅) [none, some 0] =
      removeFlat (insert 0 ∅) [some 0, none] ∧
    removeUsesList (insert 0 ∅)
        [Expr.otherExpr [], Expr.declRefExpr none] =
      removeUsesList (insert 0 ∅)
        [Expr.declRefExpr none, Expr.otherExpr []] :=
  C7_order_independence (insert 0 ∅) [none, some 0] [some 0, none]
    [Expr.otherExpr [], Expr.declRefExpr none]
    [Expr.declRefExpr none, Expr.otherExpr []]
    (List.Perm.swap (some 0) none [])
    (List.Perm.swap (Expr.declRefExpr none) (Expr.otherExpr []) [])

/-- C8: every method the Reporter warns about has a body in the unit,
provided its owning class has a resolvable record type (always the case
for a real class): a body-less private method puts its class into the
UndefinedClassSet at collection, so the class fails the report-time
definedness check. -/
theorem C8_warned_method_defined (tu : TranslationUnit) (b : Bool)
    (mid : Nat)
    (hw : mid ∈ deadMethodWarnings tu b)
    (hrt : (tu.recordAttrs (tu.methodAttrs mid).parent).recordType ≠ none) :
    (tu.methodAttrs mid).isDefined = true := by
  rw [mem_deadMethodWarnings] at hw
  have hd : Decl.methodDecl mid ∈ tu.decls :=
    ((mem_collect_private tu b mid).mp
      ((mem_removeUsesList _ _ _).mp hw.1).1).1
  obtain ⟨t, ht⟩ :
      ∃ t, (tu.recordAttrs (tu.methodAttrs mid).parent).recordType =
        some t := by
    cases hcase : (tu.recordAttrs (tu.methodAttrs mid).parent).recordType with
    | none => exact absurd hcase hrt
    | some t => exact ⟨t, rfl⟩
  by_cases hdef : (tu.methodAttrs mid).isDefined = true
  · exact hdef
  · exfalso
    have hnd : (tu.methodAttrs mid).isDefined = false :=
      Bool.eq_false_iff.mpr hdef
    have hmem : t ∈ (collect tu b).1 :=
      (mem_collect_undefined tu b t).mpr
        ⟨Decl.methodDecl mid, hd,
          by simp only [MarksUndefined]; exact ⟨hnd, ht⟩⟩
    have hcf := not_contains_of_IsDefined hw.2.1
    rw [ht] at hcf
    simp only [Contains] at hcf
    rw [decide_eq_false_iff_not] at hcf
    exact hcf hmem

/-- Witness for C8: the method warned about in the plain unit indeed has a
body. -/
theorem C8_witness : (tuWarned.methodAttrs 0).isDefined = true :=
  C8_warned_method_defined tuWarned false 0 (by decide) (by decide)

/-- C9: a private method that is not itself a function template (in
particular any non-template method of a class template, which carries no
described function template) is collected into the PrivateMethodSet even
under the default configuration with include-template-methods false. -/
theorem C9_class_template_method_collected (tu : TranslationUnit)
    (mid : Nat)
    (hd : Decl.methodDecl mid ∈ tu.decls)
    (hp : (tu.methodAttrs mid).access = Access.AS_private)
    (ht : (tu.methodAttrs mid).hasDescribedTemplate = false) :
    mid ∈ (collect tu false).2 :=
  (mem_collect_private tu false mid).mpr
    ⟨hd, hp, Or.inl (by rw [IsTemplated]; exact ht)⟩

/-- Witness for C9: the plain non-template private method 0 is collected
under the default configuration. -/
theorem C9_witness : (0 : Nat) ∈ (collect tuWarned false).2 :=
  C9_class_template_method_collected tuWarned 0 (by decide) (by decide)
    (by decide)

/-- C10: when the option list holds both help and an unrecognized
argument, in either order, the help text is not emitted and the pass does
not run: validation aborts initialization before ShowHelp would run. -/
theorem C10_help_suppressed_on_invalid (args : List String) (a : String)
    (ha : a ∈ args) (h1 : a ≠ "include-template-methods")
    (h2 : a ≠ "help") (_hh : "help" ∈ args) :
    (ParseArgs args).helpShown = false ∧ (ParseArgs args).success = false := by
  obtain ⟨hs, hhelp, _⟩ :=
    parseArgsFrom_invalid args false false ⟨a, ha, h1, h2⟩
  exact ⟨hhelp, hs⟩

/-- Witness for C10: with help before the unrecognized argument, the help
text is still suppressed and initialization fails. -/
theorem C10_witness :
    (ParseArgs ["help", "wrong-arg"]).helpShown = false ∧
    (ParseArgs ["help", "wrong-arg"]).success = false :=
  C10_help_suppressed_on_invalid ["help", "wrong-arg"] "wrong-arg"
    (by decide) (by decide) (by decide) (by decide)

end DeadMethod
